import Mathlib

/-!
Shallow embedding of the bingo game server (src/server/server.js): the
theme catalog, the card generator, the room registry, the room state
machine and the websocket message dispatch.  Calls to Math.random are
modelled by explicit streams of natural numbers; a stream value v used
to pick an index in the half-open range 0..n is taken as v % n, which
ranges over exactly the indices Math.floor(Math.random() * n) can
produce.  Timestamps (Date.now) are passed in as an explicit `now`
argument.
-/

namespace Bingo

/-- A card cell.  The free centre holds the number 0 in the code, a
sentinel distinct from every string; every other cell holds a string,
and the blank placeholder is the empty string. -/
inductive Cell where
  | free
  | str (s : String)
deriving DecidableEq

/-- Room status: "lobby" or "ended". -/
inductive GStatus where
  | lobby
  | ended
deriving DecidableEq

/-- A player as created by the join handler.  The owning socket is
modelled by its open flag only; the id of the socket equals the id of
the player, as in the code where ws.id becomes playerId. -/
structure Player where
  id : String
  name : String
  sockOpen : Bool
  card : List (List Cell)
  marks : List (List Bool)
deriving DecidableEq

/-- A room (called game in the code).  players models the insertion
ordered Map of playerId to Player as an association list. -/
structure Game where
  gameId : String
  status : GStatus
  hostId : Option String
  players : List (String × Player)
  numbersCalled : List String
  numberPool : List String
  themeName : Option String
  themeItems : Option (List String)
  createdAt : Nat
  updatedAt : Nat
deriving DecidableEq

/-- The process wide in-memory games store. -/
structure Server where
  games : List (String × Game)
deriving DecidableEq

/-- A websocket connection: its random id plus the (gameId, playerId)
binding attached by a successful join. -/
structure Conn where
  id : String
  gameId : Option String
  playerId : Option String
deriving DecidableEq

/-- Serialized player, as produced by serializeGame. -/
structure SerPlayer where
  id : String
  name : String
  card : List (List Cell)
  marks : List (List Bool)
deriving DecidableEq

/-- Serialized game state, as produced by serializeGame. -/
structure SerGame where
  gameId : String
  status : GStatus
  hostId : Option String
  themeKey : Option String
  themeDisplayName : Option String
  players : List SerPlayer
  numbersCalled : List String
deriving DecidableEq

/-- Server to client messages. -/
inductive ServerMsg where
  | gameExists (exists2 : Bool) (state : Option SerGame)
  | joined (playerId : String) (state : SerGame)
  | state (state : SerGame)
  | bingo (playerId : String) (name : String)
  | error (message : String)
deriving DecidableEq

/-- Client to server messages, after JSON parsing.  mark coordinates
are Option Int: none models a field whose typeof is not "number"
(absent, string, ...); integers model the numeric values.  other t
models a message with an unknown type tag t. -/
inductive ClientMsg where
  | probe (gameId : String)
  | join (gameId : String) (name : String) (theme : Option String) (create : Bool)
  | mark (r : Option Int) (c : Option Int) (marked : Bool)
  | requestBingo
  | other (t : String)
deriving DecidableEq

/-- The random streams consumed while handling one message: the
shuffle inside createPoolFromTheme, the shuffle inside generateCard,
and the with-replacement picks of the generateCard refill path. -/
structure Rng where
  poolR : Nat → Nat
  cardR : Nat → Nat
  pick : Nat → Nat

/-- Result of handling one message: the new store, the connection with
its (possibly updated) binding, and the messages sent, tagged by the
id of the receiving socket.  crash models a thrown TypeError escaping
the handler (nothing was sent, carried state is the state at the throw
point). -/
inductive StepResult where
  | ok (s : Server) (ws : Conn) (out : List (String × ServerMsg))
  | crash (s : Server) (ws : Conn) (out : List (String × ServerMsg))
deriving DecidableEq

/-- The store carried by a step result. -/
def stepServer : StepResult → Server
  | .ok s _ _ => s
  | .crash s _ _ => s

/-- The messages sent by a step. -/
def stepOutputs : StepResult → List (String × ServerMsg)
  | .ok _ _ out => out
  | .crash _ _ out => out

/-- Lookup in a JS Map modelled as an association list. -/
def mapGet {α : Type} (m : List (String × α)) (k : String) : Option α :=
  match m with
  | [] => none
  | p :: t => if p.1 = k then some p.2 else mapGet t k

/-- Map.set: replace in place if the key is present, else append. -/
def mapSet {α : Type} (m : List (String × α)) (k : String) (v : α) :
    List (String × α) :=
  match m with
  | [] => [(k, v)]
  | p :: t => if p.1 = k then (k, v) :: t else p :: mapSet t k v

/-- Map.delete: remove the (unique) entry with the given key. -/
def mapDelete {α : Type} (m : List (String × α)) (k : String) :
    List (String × α) :=
  match m with
  | [] => []
  | p :: t => if p.1 = k then t else p :: mapDelete t k

/-- The ds9 theme items (the only entry of THEMES). -/
def ds9Items : List String :=
  [ "Rule of acquisition",
    "Sexual tension between Odo and Quark",
    "Pretend to be nice to Cardassians",
    "Miles and Keiko disagree / argue",
    "Jake and Nog sit above promenade",
    "Odo shapeshifts",
    "Sisko misgenders Jadzia",
    "Gaslighting",
    "Morn!",
    "Flashing light",
    "Kira in just her tank top",
    "Bashir gets pushed against a wall",
    "Racism",
    "Odo accuses Quark",
    "Sisko sits on his little couch",
    "Odo is authoritarian",
    "Problem could be solved with CCTV",
    "Baseball mentioned / Baseball shown",
    "Prophets mentioned",
    "Wormhole gets used",
    "Odo solves the problem",
    "Dabo girl mentioned",
    "Quark moans",
    "Cardassian politics mentioned" ]

/-- THEMES lookup: display name and item list of a theme key. -/
def themesLookup (k : String) : Option (String × List String) :=
  if k = "ds9" then some ("Star Trek: Deep Space Nine", ds9Items) else none

/-- One Fisher-Yates swap of positions i and j; out of range indices
leave the list unchanged (unreachable during a shuffle). -/
def listSwap {α : Type} (l : List α) (i j : Nat) : List α :=
  match l.get? i, l.get? j with
  | some x, some y => (l.set i y).set j x
  | _, _ => l

/-- The Fisher-Yates loop of shuffle: at counter value i it swaps
position i with a random position in 0..i+1, then continues with i-1
down to 1. -/
def shuffleFrom {α : Type} (rnd : Nat → Nat) : List α → Nat → List α
  | l, 0 => l
  | l, i + 1 => shuffleFrom rnd (listSwap l (i + 1) (rnd (i + 1) % (i + 2))) i

/-- The shuffle function (in place Fisher-Yates on a copy). -/
def listShuffle {α : Type} (rnd : Nat → Nat) (l : List α) : List α :=
  shuffleFrom rnd l (l.length - 1)

/-- createPoolFromTheme: copy of the theme items, shuffled; empty for
a key that is not in THEMES. -/
def createPoolFromTheme (rnd : Nat → Nat) (themeKey : String) : List String :=
  match themesLookup themeKey with
  | some pr => listShuffle rnd pr.2
  | none => []

/-- The 25 cells of a generated card in row major order, for a
non-empty theme pool.  k is the linear cell index (the free centre is
k = 12), the pool argument is popped from its end exactly as
pool.pop(); when it is exhausted a cell is drawn with replacement from
the original items via the pick stream. -/
def genCells (orig : List String) (pick : Nat → Nat) :
    Nat → Nat → List String → List Cell
  | _, 0, _ => []
  | k, n + 1, pool =>
    if k = 12 then
      Cell.free :: genCells orig pick (k + 1) n pool
    else
      match pool.getLast? with
      | some x => Cell.str x :: genCells orig pick (k + 1) n pool.dropLast
      | none =>
          Cell.str (orig.getD (pick k % orig.length) "") ::
            genCells orig pick (k + 1) n pool

/-- Regroup the 25 row major cells into the 5 rows of the card. -/
def mkRows (cells : List Cell) : List (List Cell) :=
  [cells.take 5, (cells.drop 5).take 5, (cells.drop 10).take 5,
   (cells.drop 15).take 5, (cells.drop 20).take 5]

/-- The card produced for a missing or empty theme pool: all blanks
except the free centre. -/
def blankCard : List (List Cell) :=
  mkRows ((List.range 25).map fun k => if k = 12 then Cell.free else Cell.str "")

/-- generateCard: 5x5 card from the room theme items (none models the
undefined themeItems of a room with no theme). -/
def generateCard (themeItems : Option (List String)) (rs : Nat → Nat)
    (pick : Nat → Nat) : List (List Cell) :=
  match themeItems with
  | some l =>
      if 0 < l.length then mkRows (genCells l pick 0 25 (listShuffle rs l))
      else blankCard
  | none => blankCard

/-- The string content of a cell, none for the free sentinel. -/
def cellStr : Cell → Option String
  | Cell.free => none
  | Cell.str s => some s

/-- The strings held by the non-free cells of a card, row major. -/
def cardStrings (card : List (List Cell)) : List String :=
  card.join.filterMap cellStr

/-- Cell (r, c) of a card (the read card[r][c]). -/
def getCell (card : List (List Cell)) (r c : Nat) : Cell :=
  (card.getD r []).getD c (Cell.str "")

/-- A fresh room as built by getOrCreateGame. -/
def freshGame (gid : String) (now : Nat) : Game :=
  { gameId := gid, status := GStatus.lobby, hostId := none, players := [],
    numbersCalled := [], numberPool := [], themeName := none,
    themeItems := none, createdAt := now, updatedAt := now }

/-- getOrCreateGame as used by the join handler: the room of the store
if present, else a fresh one (which the join handler then writes back,
so the net effect on the store is the same as in the code, where the
fresh room is inserted immediately). -/
def getOrCreateGame (s : Server) (gid : String) (now : Nat) : Game :=
  match mapGet s.games gid with
  | some g => g
  | none => freshGame gid now

/-- serializeGame. -/
def serializeGame (g : Game) : SerGame :=
  { gameId := g.gameId, status := g.status, hostId := g.hostId,
    themeKey := g.themeName,
    themeDisplayName := g.themeName.bind fun t => (themesLookup t).map Prod.fst,
    players := g.players.map fun q =>
      { id := q.2.id, name := q.2.name, card := q.2.card, marks := q.2.marks },
    numbersCalled := g.numbersCalled }

/-- broadcastGame: the full state snapshot to every player of the room
whose socket is open, in player-map insertion order. -/
def broadcastGame (g : Game) : List (String × ServerMsg) :=
  (g.players.filter fun q => q.2.sockOpen).map fun q =>
    (q.2.id, ServerMsg.state (serializeGame g))

/-- isCardComplete: every cell of the mark grid except the free centre
(2,2) is true.  In the code a missing row or cell reads as undefined,
which is falsy; getD with default false models that. -/
def isCardComplete (p : Player) : Bool :=
  (List.range 5).all fun r =>
    (List.range 5).all fun c =>
      if r = 2 ∧ c = 2 then true
      else (p.marks.getD r []).getD c false

/-- The theme assignment step of the join handler: a supplied theme is
applied only when the room has none yet; a key that is not in THEMES
is ignored. -/
def themeApply (rnd : Nat → Nat) (g : Game) (theme : Option String) : Game :=
  match theme with
  | some t =>
      if g.themeName = none then
        match themesLookup t with
        | some pr =>
            { g with themeName := some t, themeItems := some pr.2,
                     numberPool := listShuffle rnd pr.2 }
        | none => g
      else g
  | none => g

/-- The fresh 5x5 all false mark grid with the free centre set, as
written by the join handler (marks[2][2] = true). -/
def initialMarks : List (List Bool) :=
  (List.replicate 5 (List.replicate 5 false)).set 2
    (((List.replicate 5 (List.replicate 5 false)).getD 2 []).set 2 true)

/-- The player object built by the join handler. -/
def joinPlayer (rng : Rng) (g1 : Game) (ws : Conn) (name : String) : Player :=
  { id := ws.id, name := name, sockOpen := true,
    card := generateCard g1.themeItems rng.cardR rng.pick,
    marks := initialMarks }

/-- Registration step of the join handler: insert the new player, make
them host if the room has none, touch updatedAt. -/
def joinGame (rng : Rng) (now : Nat) (ws : Conn) (name : String) (g1 : Game) :
    Game :=
  { g1 with players := mapSet g1.players ws.id (joinPlayer rng g1 ws name),
            hostId := match g1.hostId with
                      | none => some ws.id
                      | some h => some h,
            updatedAt := now }

/-- The join handler. -/
def joinCore (rng : Rng) (now : Nat) (s : Server) (ws : Conn) (gid name : String)
    (theme : Option String) : StepResult :=
  let g2 := joinGame rng now ws name
    (themeApply rng.poolR (getOrCreateGame s gid now) theme)
  StepResult.ok { games := mapSet s.games gid g2 }
    { ws with gameId := some gid, playerId := some ws.id }
    ((ws.id, ServerMsg.joined ws.id (serializeGame g2)) :: broadcastGame g2)

/-- JS assignment row[i] = v on a boolean array: in range it sets the
element; past the end it extends the array, the holes (undefined, and
hence falsy) being modelled by false. -/
def jsArraySet (l : List Bool) (i : Nat) (v : Bool) : List Bool :=
  if i < l.length then l.set i v
  else l ++ List.replicate (i - l.length) false ++ [v]

/-- The written row after the assignment row[c] = !!marked.  A
negative column sets a non-element property, which nothing in the
program ever reads, so the row is unchanged as an array. -/
def markRow (row : List Bool) (ci : Int) (m : Bool) : List Bool :=
  if ci < 0 then row else jsArraySet row ci.toNat m

/-- The player after the assignment player.marks[r][c] = !!marked, for
r a valid row index. -/
def markPlayer (p : Player) (ri ci : Int) (m : Bool) : Player :=
  { p with
    marks := p.marks.set ri.toNat (markRow (p.marks.getD ri.toNat []) ci m) }

/-- The room after a mark by player pid. -/
def markGame (now : Nat) (g : Game) (pid : String) (p : Player) (ri ci : Int)
    (m : Bool) : Game :=
  { g with players := mapSet g.players pid (markPlayer p ri ci m),
           updatedAt := now }

/-- The mark handler after the binding checks.  Only typeof r/c is
validated.  The row access marks[r] yields undefined for r outside
0..marks.length, so the element assignment that follows throws a
TypeError (crash). -/
def markCore (now : Nat) (s : Server) (ws : Conn) (gid pid : String) (g : Game)
    (p : Player) (r c : Option Int) (m : Bool) : StepResult :=
  match r, c with
  | some ri, some ci =>
      if 0 ≤ ri ∧ ri < (p.marks.length : Int) then
        StepResult.ok
          { games := mapSet s.games gid (markGame now g pid p ri ci m) } ws
          (broadcastGame (markGame now g pid p ri ci m))
      else StepResult.crash s ws []
  | _, _ => StepResult.ok s ws [(ws.id, ServerMsg.error "invalid_mark")]

/-- The request_bingo handler after the binding checks: validate the
completion rule, and either end the room and fan out the bingo
announcement followed by the state broadcast, or reply invalid_bingo
to the caller only.  The bingo loop iterates the player map of the
room after the in-place status mutation, whose players are those of
g. -/
def bingoCore (now : Nat) (s : Server) (ws : Conn) (gid : String) (g : Game)
    (p : Player) : StepResult :=
  if isCardComplete p then
    StepResult.ok
      { games := mapSet s.games gid
          { g with status := GStatus.ended, updatedAt := now } } ws
      (((g.players.filter fun q => q.2.sockOpen).map fun q =>
          (q.2.id, ServerMsg.bingo p.id p.name))
        ++ broadcastGame { g with status := GStatus.ended, updatedAt := now })
  else StepResult.ok s ws [(ws.id, ServerMsg.error "invalid_bingo")]

/-- The binding checks shared by every message type that is neither
probe nor join, in source order: not_joined, game_not_found,
player_not_found. -/
def handleBound (s : Server) (ws : Conn)
    (k : String → String → Game → Player → StepResult) : StepResult :=
  match ws.gameId with
  | none => StepResult.ok s ws [(ws.id, ServerMsg.error "not_joined")]
  | some gid =>
    match mapGet s.games gid with
    | none => StepResult.ok s ws [(ws.id, ServerMsg.error "game_not_found")]
    | some g =>
      match ws.playerId with
      | none => StepResult.ok s ws [(ws.id, ServerMsg.error "player_not_found")]
      | some pid =>
        match mapGet g.players pid with
        | none =>
            StepResult.ok s ws [(ws.id, ServerMsg.error "player_not_found")]
        | some p => k gid pid g p

/-- The websocket message dispatch. -/
def handleMessage (rng : Rng) (now : Nat) (s : Server) (ws : Conn)
    (msg : ClientMsg) : StepResult :=
  match msg with
  | .probe gid =>
      match mapGet s.games gid with
      | some g =>
          StepResult.ok s ws
            [(ws.id, ServerMsg.gameExists true (some (serializeGame g)))]
      | none => StepResult.ok s ws [(ws.id, ServerMsg.gameExists false none)]
  | .join gid name theme _ => joinCore rng now s ws gid name theme
  | .mark r c m =>
      handleBound s ws fun gid pid g p => markCore now s ws gid pid g p r c m
  | .requestBingo =>
      handleBound s ws fun gid _pid g p => bingoCore now s ws gid g p
  | .other _ =>
      handleBound s ws fun _ _ _ _ =>
        StepResult.ok s ws [(ws.id, ServerMsg.error "unknown_message_type")]

/-- The room after the close handler removed player pid: the player
entry is dropped, and if that player was host the first remaining
player in insertion order (or nobody) becomes host. -/
def closeGame (now : Nat) (g : Game) (pid : String) : Game :=
  { g with players := mapDelete g.players pid,
           hostId := if g.hostId = some pid then
               (mapDelete g.players pid).head?.map Prod.fst
             else g.hostId,
           updatedAt := now }

/-- The close handler: drop the bound player, re-elect the host if the
host left, broadcast to the remaining open sockets.  The room is never
removed from the store.  A connection bound to a game but with no
playerId deletes nothing (Map.delete of undefined) and the host
comparison with undefined is false. -/
def handleClose (now : Nat) (s : Server) (ws : Conn) :
    Server × List (String × ServerMsg) :=
  match ws.gameId with
  | none => (s, [])
  | some gid =>
    match mapGet s.games gid with
    | none => (s, [])
    | some g =>
      match ws.playerId with
      | some pid =>
          ({ games := mapSet s.games gid (closeGame now g pid) },
            broadcastGame (closeGame now g pid))
      | none =>
          ({ games := mapSet s.games gid { g with updatedAt := now } },
            broadcastGame { g with updatedAt := now })

/-- The free centre cell of the mark grid of a player. -/
def centerMark (p : Player) : Bool :=
  (p.marks.getD 2 []).getD 2 false

/-- Every player of every room of the store has the free centre cell
of the mark grid set. -/
def centerTrue (s : Server) : Prop :=
  ∀ gp ∈ s.games, ∀ q ∈ gp.2.players, centerMark q.2 = true

/-! ### Concrete states used by witnesses and counterexamples -/

/-- Constant random streams for concrete runs. -/
def rngId : Rng := ⟨id, id, id⟩

/-- A joined player with every mark set. -/
def pComplete : Player :=
  { id := "w1", name := "Alice", sockOpen := true, card := [],
    marks := List.replicate 5 (List.replicate 5 true) }

/-- A joined player with only the free centre set. -/
def pFresh : Player :=
  { id := "w1", name := "Alice", sockOpen := true, card := [],
    marks := initialMarks }

/-- A second joined player. -/
def pSecond : Player :=
  { id := "w2", name := "Bob", sockOpen := true, card := [],
    marks := initialMarks }

/-- A lobby room whose only player has a complete card. -/
def gLobby : Game :=
  { gameId := "g", status := GStatus.lobby, hostId := some "w1",
    players := [("w1", pComplete)], numbersCalled := [], numberPool := [],
    themeName := none, themeItems := none, createdAt := 0, updatedAt := 0 }

/-- A lobby room whose only player has an incomplete card. -/
def gFresh : Game := { gLobby with players := [("w1", pFresh)] }

/-- An ended room whose only player has a complete card. -/
def gEnded : Game := { gLobby with status := GStatus.ended }

/-- A lobby room with two players, the first being host. -/
def gTwo : Game := { gLobby with players := [("w1", pFresh), ("w2", pSecond)] }

def sLobby : Server := ⟨[("g", gLobby)]⟩

def sFresh : Server := ⟨[("g", gFresh)]⟩

def sEnded : Server := ⟨[("g", gEnded)]⟩

def sTwo : Server := ⟨[("g", gTwo)]⟩

/-- The connection of player w1, bound to room g. -/
def wsBound : Conn := ⟨"w1", some "g", some "w1"⟩

/-- A connection that has not joined. -/
def wsFree : Conn := ⟨"w9", none, none⟩

/-! ### Association list (JS Map) lemmas -/

theorem mapGet_set_self {α : Type} (m : List (String × α)) (k : String) (v : α) :
    mapGet (mapSet m k v) k = some v := by
  induction m with
  | nil => simp [mapSet, mapGet]
  | cons p t ih =>
      by_cases h : p.1 = k
      · simp [mapSet, h, mapGet]
      · simp [mapSet, h, mapGet, ih]

theorem mapSet_absent {α : Type} {m : List (String × α)} {k : String} (v : α)
    (h : mapGet m k = none) : mapSet m k v = m ++ [(k, v)] := by
  induction m with
  | nil => simp [mapSet]
  | cons p t ih =>
      by_cases hp : p.1 = k
      · simp [mapGet, hp] at h
      · simp only [mapGet, hp, if_neg hp] at h
        simp [mapSet, hp, ih h]

theorem mem_mapSet {α : Type} {m : List (String × α)} {k : String} {v : α}
    {q : String × α} (h : q ∈ mapSet m k v) : q ∈ m ∨ q = (k, v) := by
  induction m with
  | nil =>
      simp [mapSet] at h
      right; exact h
  | cons p t ih =>
      by_cases hp : p.1 = k
      · simp only [mapSet, if_pos hp, List.mem_cons] at h
        rcases h with h | h
        · right; exact h
        · left; exact List.mem_cons_of_mem _ h
      · simp only [mapSet, if_neg hp, List.mem_cons] at h
        rcases h with h | h
        · left; exact h ▸ List.mem_cons_self _ _
        · rcases ih h with h2 | h2
          · left; exact List.mem_cons_of_mem _ h2
          · right; exact h2

theorem mem_of_mapGet {α : Type} {m : List (String × α)} {k : String} {v : α}
    (h : mapGet m k = some v) : (k, v) ∈ m := by
  induction m with
  | nil => simp [mapGet] at h
  | cons p t ih =>
      obtain ⟨a, b⟩ := p
      by_cases hp : a = k
      · subst hp
        simp [mapGet] at h
        subst h
        exact List.mem_cons_self _ _
      · simp only [mapGet, if_neg hp] at h
        exact List.mem_cons_of_mem _ (ih h)

theorem mem_mapDelete {α : Type} {m : List (String × α)} {k : String}
    {q : String × α} (h : q ∈ mapDelete m k) : q ∈ m := by
  induction m with
  | nil => simpa [mapDelete] using h
  | cons p t ih =>
      by_cases hp : p.1 = k
      · simp only [mapDelete, if_pos hp] at h
        exact List.mem_cons_of_mem _ h
      · simp only [mapDelete, if_neg hp, List.mem_cons] at h
        rcases h with h | h
        · exact h ▸ List.mem_cons_self _ _
        · exact List.mem_cons_of_mem _ (ih h)

theorem mapGet_eq_none {α : Type} {m : List (String × α)} {k : String}
    (h : k ∉ m.map Prod.fst) : mapGet m k = none := by
  induction m with
  | nil => rfl
  | cons p t ih =>
      simp only [List.map_cons, List.mem_cons] at h
      push_neg at h
      have hp : ¬ p.1 = k := fun hh => h.1 hh.symm
      simp [mapGet, hp, ih h.2]

theorem mapGet_mapDelete_self {α : Type} {m : List (String × α)} {k : String}
    (h : (m.map Prod.fst).Nodup) : mapGet (mapDelete m k) k = none := by
  induction m with
  | nil => rfl
  | cons p t ih =>
      simp only [List.map_cons, List.nodup_cons] at h
      by_cases hp : p.1 = k
      · simp only [mapDelete, if_pos hp]
        exact mapGet_eq_none (hp ▸ h.1)
      · simp [mapDelete, hp, mapGet, ih h.2]

theorem mapSet_keys {α : Type} {m : List (String × α)} {k : String} (v : α)
    {w : α} (h : mapGet m k = some w) :
    (mapSet m k v).map Prod.fst = m.map Prod.fst := by
  induction m with
  | nil => simp [mapGet] at h
  | cons p t ih =>
      by_cases hp : p.1 = k
      · simp [mapSet, hp]
      · simp only [mapGet, if_neg hp] at h
        simp [mapSet, hp, ih h]

/-! ### getD and JS array assignment lemmas -/

theorem getD_set_self {α : Type} (l : List α) {i : Nat} (b : α) (d : α)
    (h : i < l.length) : (l.set i b).getD i d = b := by
  simp [List.getD_eq_getElem?_getD, List.getElem?_set_self h]

theorem getD_set_ne {α : Type} (l : List α) {i j : Nat} (b : α) (d : α)
    (h : i ≠ j) : (l.set i b).getD j d = l.getD j d := by
  simp [List.getD_eq_getElem?_getD, List.getElem?_set_ne h]

theorem getD_jsArraySet_self (l : List Bool) (i : Nat) (v : Bool) :
    (jsArraySet l i v).getD i false = v := by
  unfold jsArraySet
  by_cases h : i < l.length
  · simp only [if_pos h]
    exact getD_set_self l v false h
  · simp only [if_neg h]
    rw [List.getD_eq_getElem?_getD, List.append_assoc,
      List.getElem?_append_right (by omega)]
    rw [List.getElem?_append_right (by simp [List.length_replicate])]
    simp

theorem getD_jsArraySet_ne (l : List Bool) {i j : Nat} (v : Bool) (h : i ≠ j) :
    (jsArraySet l i v).getD j false = l.getD j false := by
  unfold jsArraySet
  by_cases hl : i < l.length
  · simp only [if_pos hl]
    exact getD_set_ne l v false h
  · simp only [if_neg hl]
    rw [List.getD_eq_getElem?_getD, List.getD_eq_getElem?_getD, List.append_assoc]
    by_cases hj : j < l.length
    · rw [List.getElem?_append_left hj]
    · have hnone : l[j]? = none := List.getElem?_eq_none (by omega)
      rw [List.getElem?_append_right (by omega), hnone]
      by_cases hji : j < i
      · rw [List.getElem?_append_left (by simp [List.length_replicate]; omega)]
        rw [List.getElem?_replicate, if_pos (by omega)]
        rfl
      · rw [List.getElem?_eq_none (by simp [List.length_replicate]; omega)]

/-! ### The shuffle is a permutation -/

theorem set_get_self {α : Type} :
    ∀ (l : List α) (i : Nat) (h : i < l.length), l.set i (l.get ⟨i, h⟩) = l
  | _ :: _, 0, _ => rfl
  | a :: t, i + 1, h => by
      simp only [List.set, List.get]
      rw [set_get_self t i (by simpa using h)]

theorem count_set_add {α : Type} [DecidableEq α] :
    ∀ (l : List α) (n : Nat) (hn : n < l.length) (b a : α),
      ((l.set n b).count a) + (if l.get ⟨n, hn⟩ = a then 1 else 0)
        = l.count a + (if b = a then 1 else 0) := by
  intro l
  induction l with
  | nil => intro n hn; simp at hn
  | cons x t ih =>
      intro n hn b a
      cases n with
      | zero =>
          simp only [List.set, List.get, List.count_cons, beq_iff_eq]
          by_cases hb : b = a <;> by_cases hx : x = a <;>
            simp [hb, hx] <;> omega
      | succ n =>
          have hn2 : n < t.length := by simpa using hn
          have e := ih n hn2 b a
          simp only [List.set, List.get, List.count_cons, beq_iff_eq]
          by_cases hx : x = a <;> by_cases hg : t.get ⟨n, hn2⟩ = a <;>
            by_cases hb : b = a <;> simp [hx, hg, hb] at e ⊢ <;> omega

theorem listSwap_perm {α : Type} [DecidableEq α] (l : List α) (i j : Nat) :
    (listSwap l i j).Perm l := by
  unfold listSwap
  cases hgi : l.get? i with
  | none => exact List.Perm.refl l
  | some x =>
    cases hgj : l.get? j with
    | none => exact List.Perm.refl l
    | some y =>
      obtain ⟨hi, hx⟩ := List.get?_eq_some.mp hgi
      obtain ⟨hj, hy⟩ := List.get?_eq_some.mp hgj
      by_cases hij : i = j
      · subst hij
        show ((l.set i y).set i x).Perm l
        rw [List.set_set, ← hx, set_get_self l i hi]
      · show ((l.set i y).set j x).Perm l
        rw [List.perm_iff_count]
        intro a
        have hj2 : j < (l.set i y).length := by simpa using hj
        have hyj : (l.set i y).get ⟨j, hj2⟩ = y := by
          have h2 : (l.set i y).get? j = some y := by
            rw [List.get?_eq_getElem?, List.getElem?_set_ne hij,
              ← List.get?_eq_getElem?, hgj]
          obtain ⟨h3, h4⟩ := List.get?_eq_some.mp h2
          exact h4
        have e1 := count_set_add (l.set i y) j hj2 x a
        have e2 := count_set_add l i hi y a
        rw [hyj] at e1
        rw [hx] at e2
        by_cases hxa : x = a <;> by_cases hya : y = a <;>
          simp [hxa, hya] at e1 e2 ⊢ <;> omega

theorem shuffleFrom_perm {α : Type} [DecidableEq α] (rnd : Nat → Nat) :
    ∀ (n : Nat) (l : List α), (shuffleFrom rnd l n).Perm l := by
  intro n
  induction n with
  | zero => intro l; exact List.Perm.refl l
  | succ n ih =>
      intro l
      exact (ih _).trans (listSwap_perm l (n + 1) (rnd (n + 1) % (n + 2)))

theorem listShuffle_perm {α : Type} [DecidableEq α] (rnd : Nat → Nat)
    (l : List α) : (listShuffle rnd l).Perm l :=
  shuffleFrom_perm rnd (l.length - 1) l

/-! ### Shape of a generated card for a large enough pool -/

theorem genCells_free (orig : List String) (pick : Nat → Nat) (n : Nat)
    (pool : List String) :
    genCells orig pick 12 (n + 1) pool = Cell.free :: genCells orig pick 13 n pool := by
  simp [genCells]

theorem genCells_concat (orig : List String) (pick : Nat → Nat) (k n : Nat)
    (u : List String) (x : String) (hk : ¬ k = 12) :
    genCells orig pick k (n + 1) (u ++ [x])
      = Cell.str x :: genCells orig pick (k + 1) n u := by
  simp only [genCells, if_neg hk, List.getLast?_concat, List.dropLast_concat]

theorem genCells_after (orig : List String) (pick : Nat → Nat) :
    ∀ (n k : Nat) (q : List String), 12 < k → n ≤ q.length →
      genCells orig pick k n q.reverse = (q.take n).map Cell.str := by
  intro n
  induction n with
  | zero => intro k q _ _; simp [genCells]
  | succ n ih =>
      intro k q hk hn
      cases q with
      | nil => simp at hn
      | cons x t =>
          rw [List.reverse_cons, genCells_concat orig pick k n t.reverse x (by omega)]
          rw [ih (k + 1) t (by omega) (by simpa using hn)]
          simp

theorem genCells_split (orig : List String) (pick : Nat → Nat) :
    ∀ (n k : Nat) (q : List String), k ≤ 12 → 12 < k + n → n ≤ q.length + 1 →
      genCells orig pick k n q.reverse =
        ((q.take (12 - k)).map Cell.str) ++ Cell.free ::
          (((q.drop (12 - k)).take (k + n - 13)).map Cell.str) := by
  intro n
  induction n with
  | zero => intro k q hk h12 _; omega
  | succ n ih =>
      intro k q hk h12 hq
      by_cases hk12 : k = 12
      · subst hk12
        rw [genCells_free, genCells_after orig pick n 13 q (by omega) (by omega)]
        have h1 : 12 + (n + 1) - 13 = n := by omega
        simp [h1]
      · have hklt : k < 12 := by omega
        cases q with
        | nil =>
            simp only [List.length_nil] at hq
            omega
        | cons x t =>
            rw [List.reverse_cons, genCells_concat orig pick k n t.reverse x hk12]
            rw [ih (k + 1) t (by omega) (by omega) (by simpa using hq)]
            have h1 : 12 - k = (11 - k) + 1 := by omega
            have h2 : 12 - (k + 1) = 11 - k := by omega
            have h3 : k + (n + 1) - 13 = k + 1 + n - 13 := by omega
            rw [h1, h2, h3]
            simp

theorem mkRows_join (cells : List Cell) (h : cells.length = 25) :
    (mkRows cells).join = cells := by
  have e25 : cells.take 25 = cells := List.take_of_length_le (by omega)
  have t1 : cells.take 25 = cells.take 5 ++ (cells.drop 5).take 20 := by
    have h0 := List.take_add cells 5 20
    norm_num at h0
    exact h0
  have t2 : (cells.drop 5).take 20
      = (cells.drop 5).take 5 ++ (cells.drop 10).take 15 := by
    have h0 := List.take_add (cells.drop 5) 5 15
    simp only [List.drop_drop] at h0
    norm_num at h0
    exact h0
  have t3 : (cells.drop 10).take 15
      = (cells.drop 10).take 5 ++ (cells.drop 15).take 10 := by
    have h0 := List.take_add (cells.drop 10) 5 10
    simp only [List.drop_drop] at h0
    norm_num at h0
    exact h0
  have t4 : (cells.drop 15).take 10
      = (cells.drop 15).take 5 ++ (cells.drop 20).take 5 := by
    have h0 := List.take_add (cells.drop 15) 5 5
    simp only [List.drop_drop] at h0
    norm_num at h0
    exact h0
  rw [t1, t2, t3, t4] at e25
  simpa [mkRows] using e25

theorem filterMap_cellStr_map_str (xs : List String) :
    (xs.map Cell.str).filterMap cellStr = xs := by
  induction xs with
  | nil => rfl
  | cons x t ih => simp [cellStr, ih]

theorem generateCard_decomp (pool : List String) (rs pk : Nat → Nat)
    (h24 : 24 ≤ pool.length) :
    generateCard (some pool) rs pk =
      mkRows ((((listShuffle rs pool).reverse.take 12).map Cell.str)
        ++ Cell.free ::
          ((((listShuffle rs pool).reverse.drop 12).take 12).map Cell.str)) := by
  have hplen : (listShuffle rs pool).length = pool.length :=
    (listShuffle_perm rs pool).length_eq
  have hcells := genCells_split pool pk 25 0 (listShuffle rs pool).reverse
    (by omega) (by omega) (by simp [hplen]; omega)
  rw [List.reverse_reverse] at hcells
  simp only [Nat.sub_zero, Nat.zero_add,
    show (25 : Nat) - 13 = 12 from rfl] at hcells
  simp only [generateCard, if_pos (by omega : 0 < pool.length)]
  rw [hcells]

theorem cardStrings_of_pool (pool : List String) (rs pk : Nat → Nat)
    (h24 : 24 ≤ pool.length) :
    cardStrings (generateCard (some pool) rs pk)
      = (listShuffle rs pool).reverse.take 24 := by
  have hplen : (listShuffle rs pool).length = pool.length :=
    (listShuffle_perm rs pool).length_eq
  rw [generateCard_decomp pool rs pk h24]
  have hlen : ((((listShuffle rs pool).reverse.take 12).map Cell.str)
      ++ Cell.free ::
        ((((listShuffle rs pool).reverse.drop 12).take 12).map Cell.str)).length
      = 25 := by
    simp [List.length_take, hplen]
    omega
  rw [cardStrings, mkRows_join _ hlen]
  rw [List.filterMap_append, filterMap_cellStr_map_str, List.filterMap_cons]
  simp only [cellStr]
  rw [filterMap_cellStr_map_str]
  have h0 := List.take_add (listShuffle rs pool).reverse 12 12
  norm_num at h0
  rw [← h0]

theorem getCell_center_free (pool : List String) (rs pk : Nat → Nat)
    (h24 : 24 ≤ pool.length) :
    getCell (generateCard (some pool) rs pk) 2 2 = Cell.free := by
  have hplen : (listShuffle rs pool).length = pool.length :=
    (listShuffle_perm rs pool).length_eq
  rw [generateCard_decomp pool rs pk h24]
  have hA : (((listShuffle rs pool).reverse.take 12).map Cell.str).length = 12 := by
    simp [List.length_take, hplen]
    omega
  show ((((((listShuffle rs pool).reverse.take 12).map Cell.str)
      ++ Cell.free ::
        ((((listShuffle rs pool).reverse.drop 12).take 12).map Cell.str)).drop 10).take 5).getD
      2 (Cell.str "") = Cell.free
  rw [List.getD_eq_getElem?_getD]
  rw [List.getElem?_take_of_lt (by omega : (2 : Nat) < 5)]
  rw [List.getElem?_drop]
  rw [List.getElem?_append_right (by omega : _ ≤ 10 + 2)]
  rw [hA]
  simp

/-- C7: for every theme pool with at least 24 (pairwise distinct)
items, generateCard yields the free sentinel at (2,2), and 24 pairwise
distinct non-free cells drawn only from the pool; for an absent or
empty pool it yields the all-blank card and no error. -/
theorem generateCard_spec :
    (∀ (pool : List String) (rs pk : Nat → Nat), pool.Nodup → 24 ≤ pool.length →
      getCell (generateCard (some pool) rs pk) 2 2 = Cell.free ∧
      (cardStrings (generateCard (some pool) rs pk)).Nodup ∧
      (cardStrings (generateCard (some pool) rs pk)).length = 24 ∧
      ∀ s ∈ cardStrings (generateCard (some pool) rs pk), s ∈ pool)
    ∧ (∀ rs pk : Nat → Nat, generateCard none rs pk = blankCard)
    ∧ (∀ rs pk : Nat → Nat, generateCard (some []) rs pk = blankCard) := by
  refine ⟨?_, fun _ _ => rfl, fun _ _ => rfl⟩
  intro pool rs pk hnd h24
  have hperm := listShuffle_perm rs pool
  have hplen : (listShuffle rs pool).length = pool.length := hperm.length_eq
  have hrev : (listShuffle rs pool).reverse.Nodup :=
    List.nodup_reverse.mpr (hperm.nodup_iff.mpr hnd)
  refine ⟨getCell_center_free pool rs pk h24, ?_, ?_, ?_⟩
  · rw [cardStrings_of_pool pool rs pk h24]
    exact (List.take_sublist 24 _).nodup hrev
  · rw [cardStrings_of_pool pool rs pk h24]
    simp [List.length_take, hplen]
    omega
  · intro s hs
    rw [cardStrings_of_pool pool rs pk h24] at hs
    have hmem : s ∈ (listShuffle rs pool).reverse := List.take_subset _ _ hs
    rw [List.mem_reverse] at hmem
    exact hperm.mem_iff.mp hmem

/-- C7 witness: the concrete conclusion for the ds9 item pool and the
identity random streams. -/
theorem generateCard_spec_witness :
    getCell (generateCard (some ds9Items) id id) 2 2 = Cell.free :=
  (generateCard_spec.1 ds9Items id id (by decide) (by decide)).1

/-! ### Reduction lemmas for the dispatch -/

theorem handleBound_eq (s : Server) (ws : Conn) (gid pid : String) (g : Game)
    (p : Player) (k : String → String → Game → Player → StepResult)
    (h1 : ws.gameId = some gid) (h2 : mapGet s.games gid = some g)
    (h3 : ws.playerId = some pid) (h4 : mapGet g.players pid = some p) :
    handleBound s ws k = k gid pid g p := by
  simp only [handleBound, h1, h2, h3, h4]

theorem handleJoin_eq (rng : Rng) (now : Nat) (s : Server) (ws : Conn)
    (gid name : String) (th : Option String) (cr : Bool) :
    handleMessage rng now s ws (ClientMsg.join gid name th cr) =
      StepResult.ok
        { games := mapSet s.games gid (joinGame rng now ws name
            (themeApply rng.poolR (getOrCreateGame s gid now) th)) }
        { ws with gameId := some gid, playerId := some ws.id }
        ((ws.id, ServerMsg.joined ws.id (serializeGame (joinGame rng now ws name
            (themeApply rng.poolR (getOrCreateGame s gid now) th))))
          :: broadcastGame (joinGame rng now ws name
              (themeApply rng.poolR (getOrCreateGame s gid now) th))) := rfl

theorem themeApply_of_some (rnd : Nat → Nat) (g : Game) (t0 : String)
    (hg : g.themeName = some t0) (th : Option String) :
    themeApply rnd g th = g := by
  cases th with
  | none => rfl
  | some t =>
      simp only [themeApply]
      rw [if_neg (by simp [hg])]

theorem themeApply_assign (rnd : Nat → Nat) (g : Game) (t : String)
    (pr : String × List String) (hg : g.themeName = none)
    (ht : themesLookup t = some pr) :
    themeApply rnd g (some t) =
      { g with themeName := some t, themeItems := some pr.2,
               numberPool := listShuffle rnd pr.2 } := by
  simp only [themeApply]
  rw [if_pos hg, ht]

theorem themeApply_unknown (rnd : Nat → Nat) (g : Game) (t : String)
    (hg : g.themeName = none) (ht : themesLookup t = none) :
    themeApply rnd g (some t) = g := by
  simp only [themeApply]
  rw [if_pos hg, ht]

theorem themeApply_fields (rnd : Nat → Nat) (g : Game) (th : Option String) :
    (themeApply rnd g th).status = g.status
    ∧ (themeApply rnd g th).numbersCalled = g.numbersCalled
    ∧ (themeApply rnd g th).hostId = g.hostId
    ∧ (themeApply rnd g th).players = g.players
    ∧ (themeApply rnd g th).gameId = g.gameId := by
  cases th with
  | none => exact ⟨rfl, rfl, rfl, rfl, rfl⟩
  | some t =>
      by_cases hg : g.themeName = none
      · cases htl : themesLookup t with
        | none =>
            rw [themeApply_unknown rnd g t hg htl]
            exact ⟨rfl, rfl, rfl, rfl, rfl⟩
        | some pr =>
            rw [themeApply_assign rnd g t pr hg htl]
            exact ⟨rfl, rfl, rfl, rfl, rfl⟩
      · obtain ⟨t0, ht0⟩ : ∃ t0, g.themeName = some t0 := by
          cases hgn : g.themeName with
          | none => exact absurd hgn hg
          | some t0 => exact ⟨t0, rfl⟩
        rw [themeApply_of_some rnd g t0 ht0 (some t)]
        exact ⟨rfl, rfl, rfl, rfl, rfl⟩

theorem joinGame_fields (rng : Rng) (now : Nat) (ws : Conn) (name : String)
    (g1 : Game) :
    (joinGame rng now ws name g1).status = g1.status
    ∧ (joinGame rng now ws name g1).numbersCalled = g1.numbersCalled
    ∧ (joinGame rng now ws name g1).themeName = g1.themeName
    ∧ (joinGame rng now ws name g1).themeItems = g1.themeItems
    ∧ (joinGame rng now ws name g1).numberPool = g1.numberPool
    ∧ (joinGame rng now ws name g1).players
        = mapSet g1.players ws.id (joinPlayer rng g1 ws name) :=
  ⟨rfl, rfl, rfl, rfl, rfl, rfl⟩

theorem joinGame_hostId_none (rng : Rng) (now : Nat) (ws : Conn) (name : String)
    (g1 : Game) (hg : g1.hostId = none) :
    (joinGame rng now ws name g1).hostId = some ws.id := by
  unfold joinGame
  rw [hg]

/-! ### C5: probe of an unseen room -/

/-- C5: probe on an unseen gameId replies exists=false to the caller
only, with no change to the store, and a subsequent probe of the same
gameId (by any connection) still replies exists=false. -/
theorem probe_unseen_no_side_effects (rng : Rng) (now : Nat) (s : Server)
    (ws : Conn) (gid : String) (h : mapGet s.games gid = none) :
    handleMessage rng now s ws (ClientMsg.probe gid) =
      StepResult.ok s ws [(ws.id, ServerMsg.gameExists false none)]
    ∧ ∀ (rng2 : Rng) (now2 : Nat) (ws2 : Conn),
        handleMessage rng2 now2 s ws2 (ClientMsg.probe gid) =
          StepResult.ok s ws2 [(ws2.id, ServerMsg.gameExists false none)] := by
  constructor
  · simp only [handleMessage, h]
  · intro rng2 now2 ws2
    simp only [handleMessage, h]

/-- C5 witness: a concrete probe of an empty store. -/
theorem probe_unseen_witness :
    handleMessage rngId 0 ⟨[]⟩ wsFree (ClientMsg.probe "g") =
      StepResult.ok ⟨[]⟩ wsFree [("w9", ServerMsg.gameExists false none)] :=
  (probe_unseen_no_side_effects rngId 0 ⟨[]⟩ wsFree "g" rfl).1

/-! ### C10: messages from a connection that has not joined -/

/-- C10: on a connection with no binding, every mark, request_bingo or
unknown-type message is answered with a single not_joined error to the
sender (never unknown_message_type or invalid_mark) and the store is
unchanged. -/
theorem unjoined_rejected (rng : Rng) (now : Nat) (s : Server) (ws : Conn)
    (h : ws.gameId = none) :
    (∀ (r c : Option Int) (m : Bool),
        handleMessage rng now s ws (ClientMsg.mark r c m)
          = StepResult.ok s ws [(ws.id, ServerMsg.error "not_joined")])
    ∧ (handleMessage rng now s ws ClientMsg.requestBingo
          = StepResult.ok s ws [(ws.id, ServerMsg.error "not_joined")])
    ∧ (∀ t : String, handleMessage rng now s ws (ClientMsg.other t)
          = StepResult.ok s ws [(ws.id, ServerMsg.error "not_joined")]) := by
  refine ⟨fun r c m => ?_, ?_, fun t => ?_⟩ <;>
    · show handleBound s ws _ = _
      unfold handleBound
      rw [h]

/-- C10 witness: a concrete mark before any join. -/
theorem unjoined_rejected_witness :
    handleMessage rngId 0 sFresh wsFree (ClientMsg.mark (some 1) (some 1) true)
      = StepResult.ok sFresh wsFree [("w9", ServerMsg.error "not_joined")] :=
  (unjoined_rejected rngId 0 sFresh wsFree rfl).1 (some 1) (some 1) true

/-! ### C1: the request_bingo contract -/

/-- C1: for a joined player, request_bingo succeeds exactly when the
24 non-free mark cells are all true ((2,2) exempt); on success the
room status becomes ended and the bingo announcement plus state
snapshot are fanned out; on failure only the caller receives
invalid_bingo and the store is unchanged. -/
theorem requestBingo_spec (rng : Rng) (now : Nat) (s : Server) (ws : Conn)
    (gid pid : String) (g : Game) (p : Player)
    (h1 : ws.gameId = some gid) (h2 : mapGet s.games gid = some g)
    (h3 : ws.playerId = some pid) (h4 : mapGet g.players pid = some p) :
    (isCardComplete p = true ↔
      ∀ r, r < 5 → ∀ c, c < 5 → ¬(r = 2 ∧ c = 2) →
        (p.marks.getD r []).getD c false = true)
    ∧ (isCardComplete p = true →
        handleMessage rng now s ws ClientMsg.requestBingo =
          StepResult.ok
            { games := mapSet s.games gid
                { g with status := GStatus.ended, updatedAt := now } } ws
            (((g.players.filter fun q => q.2.sockOpen).map fun q =>
                (q.2.id, ServerMsg.bingo p.id p.name))
              ++ broadcastGame { g with status := GStatus.ended, updatedAt := now }))
    ∧ (isCardComplete p = false →
        handleMessage rng now s ws ClientMsg.requestBingo =
          StepResult.ok s ws [(ws.id, ServerMsg.error "invalid_bingo")]) := by
  refine ⟨?_, ?_, ?_⟩
  · simp only [isCardComplete, List.all_eq_true, List.mem_range]
    constructor
    · intro hall r hr c hc hne
      have h5 := hall r hr c hc
      rwa [if_neg hne] at h5
    · intro hq r hr c hc
      by_cases hrc : r = 2 ∧ c = 2
      · rw [if_pos hrc]
      · rw [if_neg hrc]
        exact hq r hr c hc hrc
  · intro hc
    show handleBound s ws _ = _
    rw [handleBound_eq s ws gid pid g p _ h1 h2 h3 h4]
    unfold bingoCore
    rw [if_pos hc]
  · intro hc
    show handleBound s ws _ = _
    rw [handleBound_eq s ws gid pid g p _ h1 h2 h3 h4]
    unfold bingoCore
    rw [if_neg (by simp [hc])]

/-- C1 witness: a complete card at a concrete state wins and ends the
room. -/
theorem requestBingo_spec_witness :
    handleMessage rngId 1 sLobby wsBound ClientMsg.requestBingo =
      StepResult.ok
        { games := mapSet sLobby.games "g"
            { gLobby with status := GStatus.ended, updatedAt := 1 } } wsBound
        (((gLobby.players.filter fun q => q.2.sockOpen).map fun q =>
            (q.2.id, ServerMsg.bingo pComplete.id pComplete.name))
          ++ broadcastGame { gLobby with status := GStatus.ended, updatedAt := 1 }) :=
  (requestBingo_spec rngId 1 sLobby wsBound "g" "w1" gLobby pComplete
    rfl (by decide) rfl (by decide)).2.1 (by decide)

/-! ### C2: request_bingo after the room has ended -/

/-- C2 counterexample: in an ended room, a request_bingo from a player
with a complete card produces another bingo broadcast, so bingo
re-validation is not disabled once status is ended. -/
theorem bingo_rebroadcast_after_ended :
    ("w1", ServerMsg.bingo "w1" "Alice") ∈
      stepOutputs (handleMessage rngId 2 sEnded wsBound ClientMsg.requestBingo) := by
  decide

/-- C2 amended: once the room status is ended, a later request_bingo
is re-validated exactly as in the lobby: with a complete card it
broadcasts bingo again (the status stays ended), with an incomplete
card only the caller receives invalid_bingo. -/
theorem requestBingo_after_ended (rng : Rng) (now : Nat) (s : Server) (ws : Conn)
    (gid pid : String) (g : Game) (p : Player)
    (h1 : ws.gameId = some gid) (h2 : mapGet s.games gid = some g)
    (h3 : ws.playerId = some pid) (h4 : mapGet g.players pid = some p)
    (hend : g.status = GStatus.ended) :
    (isCardComplete p = true →
        handleMessage rng now s ws ClientMsg.requestBingo =
          StepResult.ok
            { games := mapSet s.games gid
                { g with status := GStatus.ended, updatedAt := now } } ws
            (((g.players.filter fun q => q.2.sockOpen).map fun q =>
                (q.2.id, ServerMsg.bingo p.id p.name))
              ++ broadcastGame { g with status := GStatus.ended, updatedAt := now }))
    ∧ (isCardComplete p = false →
        handleMessage rng now s ws ClientMsg.requestBingo =
          StepResult.ok s ws [(ws.id, ServerMsg.error "invalid_bingo")]) := by
  constructor
  · intro hc
    show handleBound s ws _ = _
    rw [handleBound_eq s ws gid pid g p _ h1 h2 h3 h4]
    unfold bingoCore
    rw [if_pos hc]
  · intro hc
    show handleBound s ws _ = _
    rw [handleBound_eq s ws gid pid g p _ h1 h2 h3 h4]
    unfold bingoCore
    rw [if_neg (by simp [hc])]

/-- C2 amended witness: the concrete re-broadcast in an ended room. -/
theorem requestBingo_after_ended_witness :
    handleMessage rngId 2 sEnded wsBound ClientMsg.requestBingo =
      StepResult.ok
        { games := mapSet sEnded.games "g"
            { gEnded with status := GStatus.ended, updatedAt := 2 } } wsBound
        (((gEnded.players.filter fun q => q.2.sockOpen).map fun q =>
            (q.2.id, ServerMsg.bingo pComplete.id pComplete.name))
          ++ broadcastGame { gEnded with status := GStatus.ended, updatedAt := 2 }) :=
  (requestBingo_after_ended rngId 2 sEnded wsBound "g" "w1" gEnded pComplete
    rfl (by decide) rfl (by decide) rfl).1 (by decide)

/-! ### C3: mark coordinate validation -/

/-- C3 (code_bug): a joined player sending mark with the numeric but
out-of-range row 7 makes the handler throw (the row access yields
undefined and the element assignment on it is a TypeError) instead of
answering invalid_mark as specified; no range check exists. -/
theorem mark_out_of_range_crash :
    handleMessage rngId 0 sFresh wsBound (ClientMsg.mark (some 7) (some 0) true)
      = StepResult.crash sFresh wsBound [] := by
  decide

/-! ### C6: join of an unseen room -/

/-- C6: join on an unseen gameId always succeeds, appends exactly one
new room to the store, with lobby status, empty call history, the
joining player registered as its only player, and that player as host
(the fresh room had no host). -/
theorem join_unseen_creates_room (rng : Rng) (now : Nat) (s : Server)
    (ws : Conn) (gid name : String) (th : Option String) (cr : Bool)
    (h : mapGet s.games gid = none) :
    handleMessage rng now s ws (ClientMsg.join gid name th cr) =
      StepResult.ok
        { games := s.games ++ [(gid, joinGame rng now ws name
            (themeApply rng.poolR (freshGame gid now) th))] }
        { ws with gameId := some gid, playerId := some ws.id }
        ((ws.id, ServerMsg.joined ws.id (serializeGame (joinGame rng now ws name
            (themeApply rng.poolR (freshGame gid now) th))))
          :: broadcastGame (joinGame rng now ws name
              (themeApply rng.poolR (freshGame gid now) th)))
    ∧ (joinGame rng now ws name (themeApply rng.poolR (freshGame gid now) th)).status
        = GStatus.lobby
    ∧ (joinGame rng now ws name (themeApply rng.poolR (freshGame gid now) th)).numbersCalled
        = []
    ∧ (joinGame rng now ws name (themeApply rng.poolR (freshGame gid now) th)).hostId
        = some ws.id
    ∧ (joinGame rng now ws name (themeApply rng.poolR (freshGame gid now) th)).players
        = [(ws.id, joinPlayer rng (themeApply rng.poolR (freshGame gid now) th) ws name)] := by
  have hgoc : getOrCreateGame s gid now = freshGame gid now := by
    unfold getOrCreateGame
    rw [h]
  refine ⟨?_, ?_, ?_, ?_, ?_⟩
  · rw [handleJoin_eq, hgoc, mapSet_absent _ h]
  · rw [(joinGame_fields rng now ws name _).1,
      (themeApply_fields rng.poolR (freshGame gid now) th).1]
    rfl
  · rw [(joinGame_fields rng now ws name _).2.1,
      (themeApply_fields rng.poolR (freshGame gid now) th).2.1]
    rfl
  · refine joinGame_hostId_none rng now ws name _ ?_
    rw [(themeApply_fields rng.poolR (freshGame gid now) th).2.2.1]
    rfl
  · rw [(joinGame_fields rng now ws name _).2.2.2.2.2]
    rw [(themeApply_fields rng.poolR (freshGame gid now) th).2.2.2.1]
    rfl

/-- C6 witness: the first join of an empty store. -/
theorem join_unseen_creates_room_witness :
    handleMessage rngId 0 ⟨[]⟩ wsFree (ClientMsg.join "g" "Alice" none false) =
      StepResult.ok
        { games := [] ++ [("g", joinGame rngId 0 wsFree "Alice"
            (themeApply rngId.poolR (freshGame "g" 0) none))] }
        { wsFree with gameId := some "g", playerId := some wsFree.id }
        ((wsFree.id, ServerMsg.joined wsFree.id (serializeGame (joinGame rngId 0 wsFree "Alice"
            (themeApply rngId.poolR (freshGame "g" 0) none))))
          :: broadcastGame (joinGame rngId 0 wsFree "Alice"
              (themeApply rngId.poolR (freshGame "g" 0) none))) :=
  (join_unseen_creates_room rngId 0 ⟨[]⟩ wsFree "g" "Alice" none false rfl).1

/-! ### C8: theme assignment is first-writer-wins and sticky -/

/-- C8: after any join, the room is joinGame applied to themeApply of
the previous (or fresh) room; themeApply assigns a supplied catalog
theme exactly when the room has none yet, materializing the shuffled
pool, and leaves a room with a theme untouched whatever theme a later
join supplies; joinGame never changes the theme fields. -/
theorem theme_assignment_sticky (rng : Rng) (now : Nat) (s : Server) (ws : Conn)
    (gid name : String) (cr : Bool) :
    (∀ th : Option String,
        mapGet (stepServer (handleMessage rng now s ws
            (ClientMsg.join gid name th cr))).games gid
          = some (joinGame rng now ws name
              (themeApply rng.poolR (getOrCreateGame s gid now) th)))
    ∧ (∀ (g1 : Game) (t : String) (pr : String × List String),
        g1.themeName = none → themesLookup t = some pr →
          themeApply rng.poolR g1 (some t) =
            { g1 with themeName := some t, themeItems := some pr.2,
                      numberPool := listShuffle rng.poolR pr.2 })
    ∧ (∀ (g1 : Game) (t0 : String), g1.themeName = some t0 →
        ∀ th : Option String, themeApply rng.poolR g1 th = g1)
    ∧ (∀ g1 : Game,
        (joinGame rng now ws name g1).themeName = g1.themeName
        ∧ (joinGame rng now ws name g1).themeItems = g1.themeItems
        ∧ (joinGame rng now ws name g1).numberPool = g1.numberPool) := by
  refine ⟨?_, ?_, ?_, ?_⟩
  · intro th
    rw [handleJoin_eq]
    exact mapGet_set_self _ _ _
  · intro g1 t pr hg ht
    exact themeApply_assign rng.poolR g1 t pr hg ht
  · intro g1 t0 ht0 th
    exact themeApply_of_some rng.poolR g1 t0 ht0 th
  · intro g1
    exact ⟨rfl, rfl, rfl⟩

/-- C8 witness: a fresh room with the ds9 theme supplied gets the
theme and the shuffled pool. -/
theorem theme_assignment_sticky_witness :
    themeApply rngId.poolR (freshGame "g" 0) (some "ds9") =
      { freshGame "g" 0 with
        themeName := some "ds9",
        themeItems := some ds9Items,
        numberPool := listShuffle rngId.poolR ds9Items } :=
  (theme_assignment_sticky rngId 0 ⟨[]⟩ wsFree "g" "Alice" false).2.1
    (freshGame "g" 0) "ds9" ("Star Trek: Deep Space Nine", ds9Items) rfl (by decide)

/-! ### C9: the close handler -/

/-- C9: when a bound connection closes, its player is removed from the
player map of the room; if that player was host, the first remaining
player (if any) becomes host and an empty room gets hostId none; a
non-host leaver does not change the host; the room stays in the store
and the key set of the store is unchanged (no room is ever deleted). -/
theorem close_removes_player (now : Nat) (s : Server) (ws : Conn)
    (gid pid : String) (g : Game)
    (h1 : ws.gameId = some gid) (h2 : mapGet s.games gid = some g)
    (h3 : ws.playerId = some pid)
    (hkeys : (g.players.map Prod.fst).Nodup) :
    handleClose now s ws =
      ({ games := mapSet s.games gid (closeGame now g pid) },
        broadcastGame (closeGame now g pid))
    ∧ (closeGame now g pid).players = mapDelete g.players pid
    ∧ mapGet (closeGame now g pid).players pid = none
    ∧ (g.hostId = some pid →
        ((closeGame now g pid).players = [] → (closeGame now g pid).hostId = none)
        ∧ ((closeGame now g pid).players ≠ [] →
            ∃ q ∈ (closeGame now g pid).players,
              (closeGame now g pid).hostId = some q.1))
    ∧ (g.hostId ≠ some pid → (closeGame now g pid).hostId = g.hostId)
    ∧ mapGet (handleClose now s ws).1.games gid = some (closeGame now g pid)
    ∧ (handleClose now s ws).1.games.map Prod.fst = s.games.map Prod.fst := by
  have hmain : handleClose now s ws =
      ({ games := mapSet s.games gid (closeGame now g pid) },
        broadcastGame (closeGame now g pid)) := by
    simp only [handleClose, h1, h2, h3]
  refine ⟨hmain, rfl, mapGet_mapDelete_self hkeys, ?_, ?_, ?_, ?_⟩
  · intro hh
    constructor
    · intro hemp
      show (if g.hostId = some pid then
          (mapDelete g.players pid).head?.map Prod.fst else g.hostId) = none
      have hemp2 : mapDelete g.players pid = [] := hemp
      rw [if_pos hh, hemp2]
      rfl
    · intro hne2
      have hne3 : mapDelete g.players pid ≠ [] := hne2
      cases hd : mapDelete g.players pid with
      | nil => exact absurd hd hne3
      | cons q t =>
          refine ⟨q, ?_, ?_⟩
          · show q ∈ mapDelete g.players pid
            rw [hd]
            exact List.mem_cons_self _ _
          · show (if g.hostId = some pid then
                (mapDelete g.players pid).head?.map Prod.fst else g.hostId) = some q.1
            rw [if_pos hh, hd]
            rfl
  · intro hne2
    show (if g.hostId = some pid then
        (mapDelete g.players pid).head?.map Prod.fst else g.hostId) = g.hostId
    rw [if_neg hne2]
  · rw [hmain]
    exact mapGet_set_self _ _ _
  · rw [hmain]
    exact mapSet_keys _ h2

/-- C9 witness: the host of a two-player room disconnects; the
concrete equation of the close handler. -/
theorem close_removes_player_witness :
    handleClose 4 sTwo wsBound =
      ({ games := mapSet sTwo.games "g" (closeGame 4 gTwo "w1") },
        broadcastGame (closeGame 4 gTwo "w1")) :=
  (close_removes_player 4 sTwo wsBound "g" "w1" gTwo rfl (by decide) rfl
    (by decide)).1

/-! ### C4: the free centre cell -/

/-- C4 counterexample: after a mark at row 2, column 2 with
marked=false from the owning player, the (2,2) cell of the mark grid
of that player is false: the free centre can be cleared, no operation
protects it. -/
theorem center_unmark_possible :
    ((mapGet (stepServer (handleMessage rngId 3 sFresh wsBound
        (ClientMsg.mark (some 2) (some 2) false))).games "g").bind
      (fun g => (mapGet g.players "w1").map
        (fun p => (p.marks.getD 2 []).getD 2 false))) = some false := by
  decide

theorem centerTrue_mapSet_game {s : Server} {gid : String} {g2 : Game}
    (hs : centerTrue s) (hg : ∀ q ∈ g2.players, centerMark q.2 = true) :
    centerTrue (Server.mk (mapSet s.games gid g2)) := by
  intro gp hgp q hq
  rcases mem_mapSet hgp with hmem | heq
  · exact hs gp hmem q hq
  · subst heq
    exact hg q hq

theorem game_players_center {s : Server} (hs : centerTrue s) {gid : String}
    {g : Game} (h : mapGet s.games gid = some g) :
    ∀ q ∈ g.players, centerMark q.2 = true :=
  fun q hq => hs (gid, g) (mem_of_mapGet h) q hq

theorem centerMark_joinPlayer (rng : Rng) (g1 : Game) (ws : Conn)
    (name : String) : centerMark (joinPlayer rng g1 ws name) = true := by
  show (initialMarks.getD 2 []).getD 2 false = true
  decide

theorem centerMark_markPlayer (p : Player) (ri ci : Int) (m : Bool)
    (hr : 0 ≤ ri) (hlen : ri < (p.marks.length : Int))
    (hne : ¬(ri = 2 ∧ ci = 2 ∧ m = false)) (hp : centerMark p = true) :
    centerMark (markPlayer p ri ci m) = true := by
  unfold centerMark at hp ⊢
  show ((p.marks.set ri.toNat
      (markRow (p.marks.getD ri.toNat []) ci m)).getD 2 []).getD 2 false = true
  by_cases hri : ri.toNat = 2
  · have hri2 : ri = 2 := by omega
    have h2len : 2 < p.marks.length := by omega
    rw [hri, getD_set_self _ _ _ h2len]
    unfold markRow
    by_cases hci0 : ci < 0
    · rw [if_pos hci0]
      exact hp
    · rw [if_neg hci0]
      by_cases hci : ci.toNat = 2
      · have hm : m = true := by
          cases m with
          | true => rfl
          | false => exact absurd ⟨hri2, by omega, rfl⟩ hne
        rw [hci, hm]
        exact getD_jsArraySet_self _ 2 true
      · rw [getD_jsArraySet_ne _ m hci]
        exact hp
  · rw [getD_set_ne _ _ _ hri]
    exact hp

/-- C4 amended: the free centre (2,2) is pre-marked true at join, and
every operation preserves a store in which all centres are true,
except a mark targeting row 2, column 2 with marked=false from the
owning player, which clears it (the win check still exempts the
centre). -/
theorem center_mark_invariant :
    (∀ (rng : Rng) (g1 : Game) (ws : Conn) (name : String),
        centerMark (joinPlayer rng g1 ws name) = true)
    ∧ (∀ (rng : Rng) (now : Nat) (s : Server) (ws : Conn) (msg : ClientMsg),
        msg ≠ ClientMsg.mark (some 2) (some 2) false → centerTrue s →
          centerTrue (stepServer (handleMessage rng now s ws msg)))
    ∧ (∀ (now : Nat) (s : Server) (ws : Conn),
        centerTrue s → centerTrue (handleClose now s ws).1) := by
  refine ⟨centerMark_joinPlayer, ?_, ?_⟩
  · intro rng now s ws msg hne hs
    cases msg with
    | probe gid =>
        cases h : mapGet s.games gid <;>
          simp only [handleMessage, h, stepServer] <;> exact hs
    | join gid name th cr =>
        rw [handleJoin_eq]
        refine centerTrue_mapSet_game hs ?_
        intro q hq
        rw [(joinGame_fields rng now ws name _).2.2.2.2.2] at hq
        rcases mem_mapSet hq with hmem | heq
        · rw [(themeApply_fields rng.poolR (getOrCreateGame s gid now) th).2.2.2.1]
            at hmem
          unfold getOrCreateGame at hmem
          cases h : mapGet s.games gid with
          | some g =>
              rw [h] at hmem
              exact game_players_center hs h q hmem
          | none =>
              rw [h] at hmem
              exact absurd hmem (List.not_mem_nil q)
        · subst heq
          exact centerMark_joinPlayer rng _ ws name
    | mark r c m =>
        show centerTrue (stepServer (handleBound s ws _))
        cases h1 : ws.gameId with
        | none => simp only [handleBound, h1, stepServer]; exact hs
        | some gid =>
        cases h2 : mapGet s.games gid with
        | none => simp only [handleBound, h1, h2, stepServer]; exact hs
        | some g =>
        cases h3 : ws.playerId with
        | none => simp only [handleBound, h1, h2, h3, stepServer]; exact hs
        | some pid =>
        cases h4 : mapGet g.players pid with
        | none => simp only [handleBound, h1, h2, h3, h4, stepServer]; exact hs
        | some p =>
        rw [handleBound_eq s ws gid pid g p _ h1 h2 h3 h4]
        cases r with
        | none => exact hs
        | some ri =>
        cases c with
        | none => exact hs
        | some ci =>
        by_cases hrange : 0 ≤ ri ∧ ri < (p.marks.length : Int)
        · simp only [markCore, if_pos hrange, stepServer]
          refine centerTrue_mapSet_game hs ?_
          intro q hq
          rcases mem_mapSet hq with hmem | heq
          · exact game_players_center hs h2 q hmem
          · subst heq
            refine centerMark_markPlayer p ri ci m hrange.1 hrange.2 ?_
              (game_players_center hs h2 (pid, p) (mem_of_mapGet h4))
            rintro ⟨e1, e2, e3⟩
            exact hne (by rw [e1, e2, e3])
        · simp only [markCore, if_neg hrange, stepServer]
          exact hs
    | requestBingo =>
        show centerTrue (stepServer (handleBound s ws _))
        cases h1 : ws.gameId with
        | none => simp only [handleBound, h1, stepServer]; exact hs
        | some gid =>
        cases h2 : mapGet s.games gid with
        | none => simp only [handleBound, h1, h2, stepServer]; exact hs
        | some g =>
        cases h3 : ws.playerId with
        | none => simp only [handleBound, h1, h2, h3, stepServer]; exact hs
        | some pid =>
        cases h4 : mapGet g.players pid with
        | none => simp only [handleBound, h1, h2, h3, h4, stepServer]; exact hs
        | some p =>
        rw [handleBound_eq s ws gid pid g p _ h1 h2 h3 h4]
        by_cases hcomp : isCardComplete p = true
        · simp only [bingoCore, if_pos hcomp, stepServer]
          refine centerTrue_mapSet_game hs ?_
          intro q hq
          exact game_players_center hs h2 q hq
        · simp only [bingoCore, if_neg hcomp, stepServer]
          exact hs
    | other t =>
        show centerTrue (stepServer (handleBound s ws _))
        cases h1 : ws.gameId with
        | none => simp only [handleBound, h1, stepServer]; exact hs
        | some gid =>
        cases h2 : mapGet s.games gid with
        | none => simp only [handleBound, h1, h2, stepServer]; exact hs
        | some g =>
        cases h3 : ws.playerId with
        | none => simp only [handleBound, h1, h2, h3, stepServer]; exact hs
        | some pid =>
        cases h4 : mapGet g.players pid with
        | none => simp only [handleBound, h1, h2, h3, h4, stepServer]; exact hs
        | some p =>
        rw [handleBound_eq s ws gid pid g p _ h1 h2 h3 h4]
        exact hs
  · intro now s ws hs
    cases h1 : ws.gameId with
    | none => simp only [handleClose, h1]; exact hs
    | some gid =>
    cases h2 : mapGet s.games gid with
    | none => simp only [handleClose, h1, h2]; exact hs
    | some g =>
    cases h3 : ws.playerId with
    | none =>
        simp only [handleClose, h1, h2, h3]
        refine centerTrue_mapSet_game hs ?_
        intro q hq
        exact game_players_center hs h2 q hq
    | some pid =>
        simp only [handleClose, h1, h2, h3]
        refine centerTrue_mapSet_game hs ?_
        intro q hq
        exact game_players_center hs h2 q (mem_mapDelete hq)

/-- C4 amended witness: a concrete mark away from the centre preserves
the all-centres-true invariant. -/
theorem center_mark_invariant_witness :
    centerTrue (stepServer (handleMessage rngId 5 sFresh wsBound
      (ClientMsg.mark (some 0) (some 0) true))) :=
  center_mark_invariant.2.1 rngId 5 sFresh wsBound
    (ClientMsg.mark (some 0) (some 0) true) (by decide)
    (by unfold centerTrue; decide)

end Bingo
